import Mathlib

/-!
Shallow embedding of the `service` package of `cawabunga/terra.go`:
a thin HTTP light-client binding with four methods (transaction lookup,
query, broadcast, fee estimation).

Modelling choices:
* The external HTTP client (`httpclient.Client.RequestJSON`) is an oracle:
  each method takes the decoded result the client would produce for its one
  call, as `Except String α` (`.error e` = the client returned error `e`,
  `.ok body` = the response was decoded into `body`).
* The external JSON codec (`codec.MarshalJSON`) is an oracle function from
  the request structure to `Except String String` (error, or the raw bytes).
* Go `(value, error)` returns become `α × Option String`; a nil error is
  `none`.  `errors.Wrap(err, msg)` produces the message `msg ++ ": " ++ err`.
* Observable effects (issuing an HTTP request, `time.Sleep`) are recorded in
  an event trace returned alongside the result.
* Go maps are association lists with unique keys; a nil map is `none` in
  `Option (List (String × _))`.  Writing to a nil map panics; iterating a
  nil map yields nothing.  `types.Q`, declared elsewhere in the repository,
  is modelled as a Go map from string keys to values formatted by
  `fmt.Sprintf` with the verb v, per its use in `QueryTx`.
-/

namespace TerraGo

/-- The `net/http` methods used by the service. -/
inductive HttpMethod where
  | get
  | post
deriving DecidableEq

/-- Values stored in the `types.Q` query filter (Go `interface` values as
far as `QueryTx` is concerned: it only formats them with the verb v). -/
inductive QVal where
  | str (s : String)
  | int (n : Int)
deriving DecidableEq

/-- Go `fmt.Sprintf` with the verb v on the values `QueryTx` stores: a
string prints as itself, an int64 in decimal. -/
def fmtQVal : QVal → String
  | .str s => s
  | .int n => toString n

/-- `httpclient.RequestPayload` as constructed by the four methods: HTTP
method, path, query parameters (a Go map, here an association list) and an
optional raw JSON body. -/
structure RequestPayload where
  method : HttpMethod
  path : String
  query : List (String × String)
  body : Option String
deriving DecidableEq

/-- Observable effects of a method execution, in order. -/
inductive Event where
  | request (p : RequestPayload)
  | sleep (seconds : Nat)
deriving DecidableEq

/-- `cosmostypes.TxResponse`, restricted to the fields this package reads
(`Code`, `RawLog`) plus the transaction hash standing for the rest of the
decoded body. -/
structure TxResponse where
  txhash : String
  code : Nat
  rawLog : String
deriving DecidableEq

/-- The zero value of `cosmostypes.TxResponse`. -/
def zeroTxResponse : TxResponse := { txhash := "", code := 0, rawLog := "" }

/-- `abcitypes.CodeTypeOK`: the OK result code, zero. -/
def CodeTypeOK : Nat := 0

/-- `errors.Wrap(err, msg)`: the wrapped error's message. -/
def wrapErr (msg e : String) : String := msg ++ ": " ++ e

/-- `transactionService.GetTxByHash`: builds a GET request for
`"/txs/" ++ txHash`, delegates to the client, and either wraps the client's
error (returning the zero response) or returns the decoded body unchanged.
`clientRes` is the oracle outcome of the single `RequestJSON` call. -/
def getTxByHash (clientRes : Except String TxResponse) (txHash : String) :
    List Event × TxResponse × Option String :=
  let payload : RequestPayload :=
    { method := .get, path := "/txs/" ++ txHash, query := [], body := none }
  match clientRes with
  | .error e => ([.request payload], zeroTxResponse, some (wrapErr "request json" e))
  | .ok body => ([.request payload], body, none)

/-- Go map assignment `m[k] = v` on a non-nil map: if the key is present its
entry is replaced, otherwise the entry is added (Go maps are unordered; the
association-list order is a modelling artifact). -/
def mapInsert {α : Type} : List (String × α) → String → α → List (String × α)
  | [], k, v => [(k, v)]
  | kv :: rest, k, v =>
      if kv.1 == k then (k, v) :: rest else kv :: mapInsert rest k v

/-- Go map read `m[k]` on a non-nil map (first entry with the key; Go maps
have unique keys, so this is the entry). -/
def mapLookup {α : Type} (m : List (String × α)) (k : String) : Option α :=
  (m.find? (fun kv => kv.1 == k)).map (fun kv => kv.2)

/-- `QueryTxRequest`: optional page and limit (Go `*int64`) and the
`types.Q` query filter (a nilable Go map). -/
structure QueryTxRequest where
  page : Option Int
  limit : Option Int
  query : Option (List (String × QVal))
deriving DecidableEq

/-- `QueryTxResponse`: pagination counters (`cosmostypes.Int`) and the list
of transaction results. -/
structure QueryTxResponse where
  totalCount : Int
  count : Int
  pageNumber : Int
  pageTotal : Int
  limit : Int
  txs : List TxResponse
deriving DecidableEq

/-- The zero value of `QueryTxResponse`. -/
def zeroQueryTxResponse : QueryTxResponse :=
  { totalCount := 0, count := 0, pageNumber := 0, pageTotal := 0,
    limit := 0, txs := [] }

/-- The outcome of a `QueryTx` call: a Go run-time panic (with the events
that happened before it), or a normal return carrying the caller-visible
final state of the request (its `Query` map is shared with the caller, so
writes into it survive the call), the event trace, the value and the
error. -/
inductive QueryOutcome where
  | panics (trace : List Event) (msg : String)
  | returns (finalReq : QueryTxRequest) (trace : List Event)
      (val : QueryTxResponse) (err : Option String)
deriving DecidableEq

/-- The Go run-time error message for writing to a nil map. -/
def nilMapPanicMsg : String := "assignment to entry in nil map"

/-- Last part of `QueryTx`, after the page and limit writes: copy every
entry of `req.Query` into the payload's fresh `make`d map, formatted with
the verb v (ranging over a nil map yields nothing), issue the request and
wrap-or-return. -/
def queryTxFinish (clientRes : Except String QueryTxResponse)
    (req : QueryTxRequest) : QueryOutcome :=
  let entries := match req.query with
    | none => []
    | some m => m
  let payload : RequestPayload :=
    { method := .get, path := "/txs",
      query := entries.foldl (fun acc kv => mapInsert acc kv.1 (fmtQVal kv.2)) [],
      body := none }
  match clientRes with
  | .error e =>
      .returns req [.request payload] zeroQueryTxResponse
        (some (wrapErr "request json" e))
  | .ok body => .returns req [.request payload] body none

/-- Middle part of `QueryTx`: `if req.Limit != nil { req.Query["limit"] =
*req.Limit }` — a write into the caller's map, panicking if it is nil. -/
def queryTxLimitStep (clientRes : Except String QueryTxResponse)
    (req : QueryTxRequest) : QueryOutcome :=
  match req.limit, req.query with
  | some _, none => .panics [] nilMapPanicMsg
  | some l, some m =>
      queryTxFinish clientRes
        { req with query := some (mapInsert m "limit" (.int l)) }
  | none, _ => queryTxFinish clientRes req

/-- `transactionService.QueryTx`: `if req.Page != nil { req.Query["page"] =
*req.Page }`, then the limit write, then copy the filter into the payload
and delegate to the client. -/
def queryTx (clientRes : Except String QueryTxResponse)
    (req : QueryTxRequest) : QueryOutcome :=
  match req.page, req.query with
  | some _, none => .panics [] nilMapPanicMsg
  | some p, some m =>
      queryTxLimitStep clientRes
        { req with query := some (mapInsert m "page" (.int p)) }
  | none, _ => queryTxLimitStep clientRes req

/-- `terraauth.StdTx`, opaque to this package: it is only marshalled. -/
structure StdTx where
  raw : String
deriving DecidableEq

/-- `types.BroadcastMode`, a string type; `string(mode)` is the identity on
the underlying string. -/
abbrev BroadcastMode := String

/-- `cosmosauthrest.BroadcastReq`: the transaction and the mode string. -/
structure BroadcastReq where
  tx : StdTx
  mode : String
deriving DecidableEq

/-- `transactionService.BroadcastTx`: marshal a `BroadcastReq` holding the
transaction and `string(mode)` (wrapping a marshal error), POST it to
`"/txs"` (wrapping a client error), sleep one second, then the one status
check: a non-OK code returns the decoded body with its raw log as the
error. `marshal` is the codec oracle, `clientRes` the client oracle. -/
def broadcastTx (marshal : BroadcastReq → Except String String)
    (clientRes : Except String TxResponse)
    (tx : StdTx) (mode : BroadcastMode) :
    List Event × TxResponse × Option String :=
  let req : BroadcastReq := { tx := tx, mode := mode }
  match marshal req with
  | .error e => ([], zeroTxResponse, some (wrapErr "marshal request body" e))
  | .ok raw =>
    let payload : RequestPayload :=
      { method := .post, path := "/txs", query := [], body := some raw }
    match clientRes with
    | .error e =>
        ([.request payload], zeroTxResponse, some (wrapErr "request json" e))
    | .ok body =>
        if body.code ≠ CodeTypeOK then
          ([.request payload, .sleep 1], body, some body.rawLog)
        else
          ([.request payload, .sleep 1], body, none)

/-- A single denomination of `cosmostypes.DecCoins`, opaque to this
package: gas prices are only marshalled. -/
structure DecCoin where
  denom : String
  amount : String
deriving DecidableEq

/-- `cosmostypes.DecCoins`. -/
abbrev DecCoins := List DecCoin

/-- A `cosmostypes.Msg`, opaque to this package: messages are only
marshalled. -/
structure Msg where
  raw : String
deriving DecidableEq

/-- `terraauth.StdSignMsg`, restricted to the fields `EstimateFee` reads. -/
structure StdSignMsg where
  chainID : String
  accountNumber : Nat
  sequence : Nat
  memo : String
  msgs : List Msg
deriving DecidableEq

/-- `rest.BaseReq` as populated by `EstimateFee`. -/
structure BaseReq where
  fromAddr : String
  memo : String
  chainID : String
  accountNumber : Nat
  sequence : Nat
  gasPrices : DecCoins
  gas : String
  gasAdjustment : String
  simulate : Bool
deriving DecidableEq

/-- The anonymous request struct `EstimateFee` marshals: a base request and
the sign message's messages. -/
structure EstimateFeeReq where
  baseReq : BaseReq
  msgs : List Msg
deriving DecidableEq

/-- `terraauth.StdFee`: fee amount and gas. -/
structure StdFee where
  amount : List DecCoin
  gas : Nat
deriving DecidableEq

/-- The zero value of `terraauth.StdFee`. -/
def zeroStdFee : StdFee := { amount := [], gas := 0 }

/-- The `result` field of the fee-estimation response body. -/
structure EstimateFeeResult where
  fee : StdFee
deriving DecidableEq

/-- The anonymous response struct `EstimateFee` decodes into: a height and
a result holding the fee. -/
structure EstimateFeeResp where
  height : String
  result : EstimateFeeResult
deriving DecidableEq

/-- `transactionService.EstimateFee`: build the base request from the
caller's from-address, the sign message's memo, chain id, account number
and sequence, the given gas prices and adjustment, gas fixed to auto and
simulate fixed to false; marshal it with the messages (wrapping a marshal
error), POST to `"/txs/estimate_fee"` (wrapping a client error), and return
the fee nested under the response's result. -/
def estimateFee (marshal : EstimateFeeReq → Except String String)
    (clientRes : Except String EstimateFeeResp)
    (fromAddr : String) (msg : StdSignMsg)
    (gasAdjustment : String) (gasPrices : DecCoins) :
    List Event × StdFee × Option String :=
  let req : EstimateFeeReq :=
    { baseReq :=
        { fromAddr := fromAddr, memo := msg.memo, chainID := msg.chainID,
          accountNumber := msg.accountNumber, sequence := msg.sequence,
          gasPrices := gasPrices, gas := "auto",
          gasAdjustment := gasAdjustment, simulate := false },
      msgs := msg.msgs }
  match marshal req with
  | .error e => ([], zeroStdFee, some (wrapErr "marshal request body" e))
  | .ok raw =>
    let payload : RequestPayload :=
      { method := .post, path := "/txs/estimate_fee", query := [], body := some raw }
    match clientRes with
    | .error e =>
        ([.request payload], zeroStdFee, some (wrapErr "request json" e))
    | .ok body => ([.request payload], body.result.fee, none)

/-- The query filter after `QueryTx`'s two conditional writes: `"page"` and
then `"limit"` inserted when the corresponding pointer is non-nil. -/
def withPageLimit (page limit : Option Int) (m : List (String × QVal)) :
    List (String × QVal) :=
  let m1 := match page with
    | none => m
    | some p => mapInsert m "page" (.int p)
  match limit with
  | none => m1
  | some l => mapInsert m1 "limit" (.int l)

lemma mapInsert_of_not_mem {α : Type} {m : List (String × α)} {k : String}
    (v : α) (h : ¬ k ∈ m.map Prod.fst) : mapInsert m k v = m ++ [(k, v)] := by
  induction m with
  | nil => rfl
  | cons kv rest ih =>
    have hne : kv.1 ≠ k := by
      intro he
      exact h (by simp only [List.map_cons, List.mem_cons]; exact Or.inl he.symm)
    have hb : (kv.1 == k) = false := beq_eq_false_iff_ne.mpr hne
    have hrest : ¬ k ∈ rest.map Prod.fst := by
      intro hmem
      exact h (by simp only [List.map_cons, List.mem_cons]; exact Or.inr hmem)
    simp [mapInsert, hb, ih hrest]

lemma keys_mapInsert_of_mem {α : Type} {m : List (String × α)} {k : String}
    (v : α) (h : k ∈ m.map Prod.fst) :
    (mapInsert m k v).map Prod.fst = m.map Prod.fst := by
  induction m with
  | nil => simp at h
  | cons kv rest ih =>
    by_cases hkv : kv.1 = k
    · have hb : (kv.1 == k) = true := beq_iff_eq.mpr hkv
      simp [mapInsert, hb, hkv]
    · have hb : (kv.1 == k) = false := beq_eq_false_iff_ne.mpr hkv
      have hrest : k ∈ rest.map Prod.fst := by
        simp only [List.map_cons, List.mem_cons] at h
        cases h with
        | inl he => exact absurd he.symm hkv
        | inr hm => exact hm
      simp [mapInsert, hb, ih hrest]

lemma nodup_keys_mapInsert {α : Type} {m : List (String × α)} {k : String}
    (v : α) (hnd : (m.map Prod.fst).Nodup) :
    ((mapInsert m k v).map Prod.fst).Nodup := by
  by_cases h : k ∈ m.map Prod.fst
  · rw [keys_mapInsert_of_mem v h]; exact hnd
  · rw [mapInsert_of_not_mem v h]
    simp only [List.map_append, List.nodup_append]
    refine ⟨hnd, by simp, ?_⟩
    intro x hx hx1
    simp only [List.map_cons, List.map_nil, List.mem_singleton] at hx1
    exact h (hx1 ▸ hx)

lemma mapLookup_mapInsert_self {α : Type} (m : List (String × α))
    (k : String) (v : α) : mapLookup (mapInsert m k v) k = some v := by
  induction m with
  | nil => simp [mapInsert, mapLookup]
  | cons kv rest ih =>
    by_cases hkv : kv.1 = k
    · have hb : (kv.1 == k) = true := beq_iff_eq.mpr hkv
      simp [mapInsert, hb, mapLookup]
    · have hb : (kv.1 == k) = false := beq_eq_false_iff_ne.mpr hkv
      simp only [mapInsert, hb, Bool.false_eq_true, if_false]
      simp only [mapLookup] at ih ⊢
      rw [List.find?_cons_of_neg _ (by simp [hb])]
      exact ih

lemma mapLookup_mapInsert_ne {α : Type} (m : List (String × α))
    {k k' : String} (v : α) (hne : k' ≠ k) :
    mapLookup (mapInsert m k v) k' = mapLookup m k' := by
  have hb' : (k == k') = false := beq_eq_false_iff_ne.mpr (Ne.symm hne)
  induction m with
  | nil => simp [mapInsert, mapLookup, hb']
  | cons kv rest ih =>
    by_cases hkv : kv.1 = k
    · have hb : (kv.1 == k) = true := beq_iff_eq.mpr hkv
      have hbk : (kv.1 == k') = false := by
        rw [hkv]; exact hb'
      simp only [mapInsert, hb, if_true, mapLookup]
      rw [List.find?_cons_of_neg _ (by simp [hb']),
        List.find?_cons_of_neg _ (by simp [hbk])]
    · have hb : (kv.1 == k) = false := beq_eq_false_iff_ne.mpr hkv
      simp only [mapInsert, hb, Bool.false_eq_true, if_false]
      by_cases hkv' : kv.1 = k'
      · have hbk : (kv.1 == k') = true := beq_iff_eq.mpr hkv'
        simp only [mapLookup]
        rw [List.find?_cons_of_pos _ (by simp [hbk]),
          List.find?_cons_of_pos _ (by simp [hbk])]
      · have hbk : (kv.1 == k') = false := beq_eq_false_iff_ne.mpr hkv'
        simp only [mapLookup] at ih ⊢
        rw [List.find?_cons_of_neg _ (by simp [hbk]),
          List.find?_cons_of_neg _ (by simp [hbk])]
        exact ih

lemma foldl_mapInsert_append {α β : Type} (f : α → β) :
    ∀ (m : List (String × α)) (acc : List (String × β)),
      (m.map Prod.fst).Nodup →
      (∀ k, k ∈ m.map Prod.fst → ¬ k ∈ acc.map Prod.fst) →
      m.foldl (fun a kv => mapInsert a kv.1 (f kv.2)) acc
        = acc ++ m.map (fun kv => (kv.1, f kv.2))
  | [], acc, _, _ => by simp
  | (k, v) :: rest, acc, hnd, hdisj => by
    have hk_acc : ¬ k ∈ acc.map Prod.fst := hdisj k (by simp)
    have hstep : mapInsert acc k (f v) = acc ++ [(k, f v)] :=
      mapInsert_of_not_mem (f v) hk_acc
    have hnd' : (rest.map Prod.fst).Nodup := by
      simpa using hnd.of_cons
    have hk_rest : ¬ k ∈ rest.map Prod.fst := by
      have := hnd
      simp only [List.map_cons, List.nodup_cons] at this
      exact this.1
    have hdisj' : ∀ k', k' ∈ rest.map Prod.fst →
        ¬ k' ∈ (acc ++ [(k, f v)]).map Prod.fst := by
      intro k' hk' hmem
      simp only [List.map_append, List.mem_append, List.map_cons,
        List.map_nil, List.mem_singleton] at hmem
      cases hmem with
      | inl hin => exact hdisj k' (by simp [hk']) hin
      | inr heq => exact hk_rest (heq ▸ hk')
    calc ((k, v) :: rest).foldl (fun a kv => mapInsert a kv.1 (f kv.2)) acc
        = rest.foldl (fun a kv => mapInsert a kv.1 (f kv.2))
            (acc ++ [(k, f v)]) := by rw [List.foldl_cons, hstep]
      _ = (acc ++ [(k, f v)]) ++ rest.map (fun kv => (kv.1, f kv.2)) :=
            foldl_mapInsert_append f rest (acc ++ [(k, f v)]) hnd' hdisj'
      _ = acc ++ ((k, v) :: rest).map (fun kv => (kv.1, f kv.2)) := by
            simp

lemma copyFmt_eq_map {α β : Type} (f : α → β) (m : List (String × α))
    (hnd : (m.map Prod.fst).Nodup) :
    m.foldl (fun a kv => mapInsert a kv.1 (f kv.2)) []
      = m.map (fun kv => (kv.1, f kv.2)) := by
  simpa using foldl_mapInsert_append f m [] hnd (by simp)

lemma nodup_keys_withPageLimit (page limit : Option Int)
    (m : List (String × QVal)) (hnd : (m.map Prod.fst).Nodup) :
    ((withPageLimit page limit m).map Prod.fst).Nodup := by
  unfold withPageLimit
  cases page with
  | none =>
    cases limit with
    | none => exact hnd
    | some l => exact nodup_keys_mapInsert _ hnd
  | some p =>
    cases limit with
    | none => exact nodup_keys_mapInsert _ hnd
    | some l => exact nodup_keys_mapInsert _ (nodup_keys_mapInsert _ hnd)

lemma queryTx_eq (clientRes : Except String QueryTxResponse)
    (page limit : Option Int) (m : List (String × QVal)) :
    queryTx clientRes ⟨page, limit, some m⟩ =
      queryTxFinish clientRes ⟨page, limit, some (withPageLimit page limit m)⟩ := by
  cases page <;> cases limit <;> rfl

/-- C1: BroadcastTx performs exactly one status check on the decoded
response: when the client decodes a response whose code is not the OK code,
the returned error is the node's raw log, and when the code is OK no error
is returned. -/
theorem broadcastTx_code_check (marshal : BroadcastReq → Except String String)
    (tx : StdTx) (mode : BroadcastMode) (raw : String) (resp : TxResponse)
    (hm : marshal { tx := tx, mode := mode } = .ok raw) :
    (broadcastTx marshal (.ok resp) tx mode).2.2 =
      if resp.code ≠ CodeTypeOK then some resp.rawLog else none := by
  by_cases h : resp.code = CodeTypeOK <;> simp [broadcastTx, hm, h]

theorem broadcastTx_code_check_witness :
    (broadcastTx (fun _ => .ok "rawbody")
      (.ok { txhash := "h", code := 5, rawLog := "out of gas" })
      { raw := "tx" } "block").2.2 = some "out of gas" :=
  broadcastTx_code_check (fun _ => .ok "rawbody") { raw := "tx" } "block"
    "rawbody" { txhash := "h", code := 5, rawLog := "out of gas" } rfl

/-- C2: GetTxByHash builds a GET request whose path is the literal
`"/txs/"` followed by the hash, and on success returns the decoded
TxResponse unchanged (on client error only the payload part is stated
here; the error wrapping is C6). -/
theorem getTxByHash_spec (txHash : String) (resp : TxResponse) (e : String) :
    getTxByHash (.ok resp) txHash =
      ([.request { method := .get, path := "/txs/" ++ txHash, query := [], body := none }], resp, none) ∧
    (getTxByHash (.error e) txHash).1 =
      [.request { method := .get, path := "/txs/" ++ txHash, query := [], body := none }] :=
  ⟨rfl, rfl⟩

/-- C3: QueryTx builds a GET request to `"/txs"` whose query parameters are
exactly the entries of the request's Query filter — after `"page"` and
`"limit"` have been written into it when the corresponding pointers are
non-nil — each value formatted as a string; on success it returns the
decoded QueryTxResponse unchanged.  The Nodup hypothesis is the Go map
invariant that keys are unique. -/
theorem queryTx_request_construction (page limit : Option Int)
    (m : List (String × QVal)) (resp : QueryTxResponse)
    (hnd : (m.map Prod.fst).Nodup) :
    queryTx (.ok resp) ⟨page, limit, some m⟩ =
      .returns ⟨page, limit, some (withPageLimit page limit m)⟩
        [.request
          { method := .get
            path := "/txs"
            query := (withPageLimit page limit m).map (fun kv => (kv.1, fmtQVal kv.2))
            body := none }]
        resp none := by
  rw [queryTx_eq]
  have hnd' := nodup_keys_withPageLimit page limit m hnd
  simp only [queryTxFinish]
  rw [copyFmt_eq_map fmtQVal _ hnd']

theorem queryTx_request_construction_witness :
    queryTx (.ok zeroQueryTxResponse)
      ⟨some 2, some 30, some [("message.action", .str "send")]⟩ =
      .returns
        ⟨some 2, some 30,
          some (withPageLimit (some 2) (some 30)
            [("message.action", .str "send")])⟩
        [.request
          { method := .get
            path := "/txs"
            query := (withPageLimit (some 2) (some 30) [("message.action", .str "send")]).map (fun kv => (kv.1, fmtQVal kv.2))
            body := none }]
        zeroQueryTxResponse none :=
  queryTx_request_construction (some 2) (some 30)
    [("message.action", .str "send")] zeroQueryTxResponse (by decide)

/-- C4: BroadcastTx POSTs to `"/txs"` a body that is exactly the codec's
JSON encoding of a BroadcastReq holding the caller's transaction and the
caller's mode as a string, whatever the client then answers: the first
event of every execution whose marshalling succeeded is that request. -/
theorem broadcastTx_request_construction
    (marshal : BroadcastReq → Except String String)
    (tx : StdTx) (mode : BroadcastMode) (raw : String)
    (clientRes : Except String TxResponse)
    (hm : marshal { tx := tx, mode := mode } = .ok raw) :
    ∃ rest, (broadcastTx marshal clientRes tx mode).1 =
      .request { method := .post, path := "/txs", query := [], body := some raw } :: rest := by
  cases clientRes with
  | error e => exact ⟨[], by simp [broadcastTx, hm]⟩
  | ok body =>
    by_cases h : body.code = CodeTypeOK
    · exact ⟨[.sleep 1], by simp [broadcastTx, hm, h]⟩
    · exact ⟨[.sleep 1], by simp [broadcastTx, hm, h]⟩

theorem broadcastTx_request_construction_witness :
    ∃ rest, (broadcastTx (fun _ => .ok "encoded")
      (.ok zeroTxResponse) { raw := "tx" } "sync").1 =
      .request { method := .post, path := "/txs", query := [], body := some "encoded" } :: rest :=
  broadcastTx_request_construction (fun _ => .ok "encoded") { raw := "tx" }
    "sync" "encoded" (.ok zeroTxResponse) rfl

/-- C5: EstimateFee POSTs to `"/txs/estimate_fee"` the marshalled request
whose base request is built from the caller's from-address, the sign
message's memo, chain id, account number and sequence, the given gas
prices and gas adjustment, gas fixed to `"auto"` and simulate fixed to
false, together with the sign message's messages; on success it returns
exactly the fee nested under the response's result field. -/
theorem estimateFee_spec (marshal : EstimateFeeReq → Except String String)
    (fromAddr : String) (msg : StdSignMsg) (gasAdjustment : String)
    (gasPrices : DecCoins) (raw : String) (resp : EstimateFeeResp)
    (hm : marshal
      { baseReq :=
          { fromAddr := fromAddr, memo := msg.memo, chainID := msg.chainID,
            accountNumber := msg.accountNumber, sequence := msg.sequence,
            gasPrices := gasPrices, gas := "auto",
            gasAdjustment := gasAdjustment, simulate := false },
        msgs := msg.msgs } = .ok raw) :
    estimateFee marshal (.ok resp) fromAddr msg gasAdjustment gasPrices =
      ([.request { method := .post, path := "/txs/estimate_fee", query := [], body := some raw }], resp.result.fee, none) := by
  simp only [estimateFee, hm]

theorem estimateFee_spec_witness :
    estimateFee (fun _ => .ok "encoded")
      (.ok { height := "12", result := { fee := { amount := [], gas := 200000 } } })
      "terra1abc"
      { chainID := "columbus-4", accountNumber := 7, sequence := 3,
        memo := "note", msgs := [{ raw := "send" }] }
      "1.4" [{ denom := "uluna", amount := "0.015" }] =
      ([.request { method := .post, path := "/txs/estimate_fee", query := [], body := some "encoded" }], { amount := [], gas := 200000 }, none) :=
  estimateFee_spec (fun _ => .ok "encoded") "terra1abc"
    { chainID := "columbus-4", accountNumber := 7, sequence := 3,
      memo := "note", msgs := [{ raw := "send" }] }
    "1.4" [{ denom := "uluna", amount := "0.015" }] "encoded"
    { height := "12", result := { fee := { amount := [], gas := 200000 } } }
    rfl

/-- C6: whenever the delegated client call fails, each of the four methods
issues no further request (its trace holds exactly the one request) and
returns the client's error wrapped with the message `"request json"`
together with the zero value of its result type. -/
theorem requestJson_error_wrap (e : String) (txHash : String)
    (page limit : Option Int) (m : List (String × QVal))
    (marshalB : BroadcastReq → Except String String)
    (tx : StdTx) (mode : BroadcastMode) (rawB : String)
    (marshalE : EstimateFeeReq → Except String String)
    (fromAddr : String) (msg : StdSignMsg) (gasAdjustment : String)
    (gasPrices : DecCoins) (rawE : String)
    (hmB : marshalB { tx := tx, mode := mode } = .ok rawB)
    (hmE : marshalE
      { baseReq :=
          { fromAddr := fromAddr, memo := msg.memo, chainID := msg.chainID,
            accountNumber := msg.accountNumber, sequence := msg.sequence,
            gasPrices := gasPrices, gas := "auto",
            gasAdjustment := gasAdjustment, simulate := false },
        msgs := msg.msgs } = .ok rawE) :
    getTxByHash (.error e) txHash =
      ([.request { method := .get, path := "/txs/" ++ txHash, query := [], body := none }], zeroTxResponse, some (wrapErr "request json" e)) ∧
    (∃ fr p, queryTx (.error e) ⟨page, limit, some m⟩ =
      .returns fr [.request p] zeroQueryTxResponse
        (some (wrapErr "request json" e))) ∧
    broadcastTx marshalB (.error e) tx mode =
      ([.request { method := .post, path := "/txs", query := [], body := some rawB }], zeroTxResponse,
        some (wrapErr "request json" e)) ∧
    estimateFee marshalE (.error e) fromAddr msg gasAdjustment gasPrices =
      ([.request { method := .post, path := "/txs/estimate_fee", query := [], body := some rawE }], zeroStdFee,
        some (wrapErr "request json" e)) := by
  refine ⟨rfl, ?_, by simp [broadcastTx, hmB], by simp [estimateFee, hmE]⟩
  refine ⟨⟨page, limit, some (withPageLimit page limit m)⟩,
    { method := .get
      path := "/txs"
      query := (withPageLimit page limit m).foldl (fun acc kv => mapInsert acc kv.1 (fmtQVal kv.2)) []
      body := none }, ?_⟩
  rw [queryTx_eq]
  rfl

theorem requestJson_error_wrap_witness :
    getTxByHash (.error "timeout") "ABCD" =
      ([.request { method := .get, path := "/txs/" ++ "ABCD", query := [], body := none }], zeroTxResponse,
        some (wrapErr "request json" "timeout")) ∧
    (∃ fr p, queryTx (.error "timeout") ⟨some 1, none, some []⟩ =
      .returns fr [.request p] zeroQueryTxResponse
        (some (wrapErr "request json" "timeout"))) ∧
    broadcastTx (fun _ => .ok "encB") (.error "timeout") { raw := "tx" } "block" =
      ([.request { method := .post, path := "/txs", query := [], body := some "encB" }], zeroTxResponse,
        some (wrapErr "request json" "timeout")) ∧
    estimateFee (fun _ => .ok "encE") (.error "timeout") "terra1abc"
      { chainID := "columbus-4", accountNumber := 7, sequence := 3,
        memo := "", msgs := [] } "1.4" [] =
      ([.request { method := .post, path := "/txs/estimate_fee", query := [], body := some "encE" }], zeroStdFee,
        some (wrapErr "request json" "timeout")) :=
  requestJson_error_wrap "timeout" "ABCD" (some 1) none []
    (fun _ => .ok "encB") { raw := "tx" } "block" "encB"
    (fun _ => .ok "encE") "terra1abc"
    { chainID := "columbus-4", accountNumber := 7, sequence := 3,
      memo := "", msgs := [] } "1.4" [] "encE" rfl rfl

/-- C7: in every execution of BroadcastTx whose HTTP request succeeded, the
hard-coded one-second sleep happens after the request and is the last event
before the (pure) result-code check and the return: the trace is exactly
the request followed by the sleep. -/
theorem broadcastTx_sleep_after_request
    (marshal : BroadcastReq → Except String String)
    (tx : StdTx) (mode : BroadcastMode) (raw : String) (resp : TxResponse)
    (hm : marshal { tx := tx, mode := mode } = .ok raw) :
    (broadcastTx marshal (.ok resp) tx mode).1 =
      [.request { method := .post, path := "/txs", query := [], body := some raw }, .sleep 1] := by
  by_cases h : resp.code = CodeTypeOK <;> simp [broadcastTx, hm, h]

theorem broadcastTx_sleep_after_request_witness :
    (broadcastTx (fun _ => .ok "enc") (.ok zeroTxResponse)
      { raw := "tx" } "block").1 =
      [.request { method := .post, path := "/txs", query := [], body := some "enc" }, .sleep 1] :=
  broadcastTx_sleep_after_request (fun _ => .ok "enc") { raw := "tx" }
    "block" "enc" zeroTxResponse rfl

/-- C8: QueryTx panics on the nil-map write — with no HTTP request issued —
exactly when the Query map is nil while Page or Limit is non-nil; with a
non-nil Query map (any Page and Limit), or with Page and Limit both nil, it
returns normally. -/
theorem queryTx_nil_map_panic (clientRes : Except String QueryTxResponse)
    (page limit page2 limit2 : Option Int) (m2 : List (String × QVal))
    (h : page ≠ none ∨ limit ≠ none) :
    queryTx clientRes ⟨page, limit, none⟩ = .panics [] nilMapPanicMsg ∧
    (∃ fr tr v er, queryTx clientRes ⟨page2, limit2, some m2⟩ =
      .returns fr tr v er) ∧
    (∃ fr tr v er, queryTx clientRes ⟨none, none, none⟩ =
      .returns fr tr v er) := by
  refine ⟨?_, ?_, ?_⟩
  · cases page with
    | some p => rfl
    | none =>
      cases limit with
      | some l => rfl
      | none =>
        rcases h with h1 | h2
        · exact absurd rfl h1
        · exact absurd rfl h2
  · rw [queryTx_eq]
    cases clientRes <;> exact ⟨_, _, _, _, rfl⟩
  · cases clientRes <;> exact ⟨_, _, _, _, rfl⟩

theorem queryTx_nil_map_panic_witness :
    queryTx (.ok zeroQueryTxResponse) ⟨some 1, none, none⟩ =
      .panics [] nilMapPanicMsg ∧
    (∃ fr tr v er, queryTx (.ok zeroQueryTxResponse)
      ⟨some 1, some 10, some []⟩ = .returns fr tr v er) ∧
    (∃ fr tr v er, queryTx (.ok zeroQueryTxResponse)
      ⟨none, none, none⟩ = .returns fr tr v er) :=
  queryTx_nil_map_panic (.ok zeroQueryTxResponse) (some 1) none (some 1)
    (some 10) [] (Or.inl (by decide))

/-- C9: QueryTx writes `"page"` and `"limit"` into the caller-supplied
Query map itself, so after the call the caller's request holds the mutated
map (its page and limit fields unchanged); the written keys carry the
pointed-to values and every other key keeps its previous value. -/
theorem queryTx_mutates_query_map (clientRes : Except String QueryTxResponse)
    (page limit : Option Int) (p l : Int) (m : List (String × QVal))
    (k : String) (hk1 : k ≠ "page") (hk2 : k ≠ "limit") :
    (∃ tr v er, queryTx clientRes ⟨page, limit, some m⟩ =
      .returns ⟨page, limit, some (withPageLimit page limit m)⟩ tr v er) ∧
    mapLookup (withPageLimit (some p) limit m) "page" = some (.int p) ∧
    mapLookup (withPageLimit page (some l) m) "limit" = some (.int l) ∧
    mapLookup (withPageLimit page limit m) k = mapLookup m k := by
  refine ⟨?_, ?_, ?_, ?_⟩
  · rw [queryTx_eq]
    cases clientRes <;> exact ⟨_, _, _, rfl⟩
  · cases limit with
    | none => exact mapLookup_mapInsert_self m "page" (.int p)
    | some l2 =>
      rw [withPageLimit]
      rw [mapLookup_mapInsert_ne _ _ (by decide)]
      exact mapLookup_mapInsert_self m "page" (.int p)
  · cases page with
    | none => exact mapLookup_mapInsert_self m "limit" (.int l)
    | some p2 =>
      exact mapLookup_mapInsert_self (mapInsert m "page" (.int p2)) "limit" (QVal.int l)
  · cases page with
    | none =>
      cases limit with
      | none => rfl
      | some l2 => exact mapLookup_mapInsert_ne m (.int l2) hk2
    | some p2 =>
      cases limit with
      | none => exact mapLookup_mapInsert_ne m (.int p2) hk1
      | some l2 =>
        rw [withPageLimit, mapLookup_mapInsert_ne _ _ hk2]
        exact mapLookup_mapInsert_ne m (.int p2) hk1

theorem queryTx_mutates_query_map_witness :
    (∃ tr v er, queryTx (.ok zeroQueryTxResponse)
      ⟨some 2, some 30, some [("message.action", .str "send")]⟩ =
      .returns
        ⟨some 2, some 30,
          some (withPageLimit (some 2) (some 30)
            [("message.action", .str "send")])⟩ tr v er) ∧
    mapLookup (withPageLimit (some 2) (some 30)
      [("message.action", .str "send")]) "page" = some (.int 2) ∧
    mapLookup (withPageLimit (some 2) (some 30)
      [("message.action", .str "send")]) "limit" = some (.int 30) ∧
    mapLookup (withPageLimit (some 2) (some 30)
      [("message.action", .str "send")]) "message.action" =
      mapLookup [("message.action", .str "send")] "message.action" :=
  queryTx_mutates_query_map (.ok zeroQueryTxResponse) (some 2) (some 30) 2 30
    [("message.action", .str "send")] "message.action" (by decide) (by decide)

/-- C10: when the node rejects the transaction (non-OK code) BroadcastTx
returns the fully decoded body — necessarily different from the zero
TxResponse — together with the raw-log error, whereas on a client error or
a marshalling error it returns the zero TxResponse with the wrapped error;
so a non-nil error with a non-zero body identifies a node rejection. -/
theorem broadcastTx_error_discrimination
    (marshal marshal2 : BroadcastReq → Except String String)
    (tx : StdTx) (mode : BroadcastMode) (raw : String) (resp : TxResponse)
    (e2 e3 : String)
    (hm : marshal { tx := tx, mode := mode } = .ok raw)
    (hcode : resp.code ≠ CodeTypeOK)
    (hm2 : marshal2 { tx := tx, mode := mode } = .error e3) :
    (broadcastTx marshal (.ok resp) tx mode).2 = (resp, some resp.rawLog) ∧
    resp ≠ zeroTxResponse ∧
    (broadcastTx marshal (.error e2) tx mode).2 =
      (zeroTxResponse, some (wrapErr "request json" e2)) ∧
    (broadcastTx marshal2 (.error e2) tx mode).2 =
      (zeroTxResponse, some (wrapErr "marshal request body" e3)) := by
  refine ⟨by simp [broadcastTx, hm, hcode], ?_,
    by simp [broadcastTx, hm], by simp [broadcastTx, hm2]⟩
  intro hz
  exact hcode (by rw [hz]; rfl)

theorem broadcastTx_error_discrimination_witness :
    (broadcastTx (fun _ => .ok "enc")
      (.ok { txhash := "h", code := 4, rawLog := "rejected" })
      { raw := "tx" } "block").2 =
      ({ txhash := "h", code := 4, rawLog := "rejected" },
        some "rejected") ∧
    ({ txhash := "h", code := 4, rawLog := "rejected" } : TxResponse) ≠
      zeroTxResponse ∧
    (broadcastTx (fun _ => .ok "enc") (.error "down")
      { raw := "tx" } "block").2 =
      (zeroTxResponse, some (wrapErr "request json" "down")) ∧
    (broadcastTx (fun _ => .error "bad msg") (.error "down")
      { raw := "tx" } "block").2 =
      (zeroTxResponse, some (wrapErr "marshal request body" "bad msg")) :=
  broadcastTx_error_discrimination (fun _ => .ok "enc")
    (fun _ => .error "bad msg") { raw := "tx" } "block" "enc"
    { txhash := "h", code := 4, rawLog := "rejected" } "down" "bad msg"
    rfl (by decide) rfl

end TerraGo
